import Mathlib

/-!
Shallow embedding of the chunk storage facade of `src/src/database/chunks.rs`
(ferrumc). The persistent store (a heed/LMDB environment holding one table
named "chunks"), the moka cache, and the facade operations `get_chunk`,
`insert_chunk`, `update_chunk`, `chunk_exists`, `batch_insert` and
`load_into_cache` are modelled as explicit state transformers over a
`Database` record. Blocking-offload (`spawn_blocking(..).await` combined with
`.unwrap()` or `?`) is modelled by the combinators `awaitUnwrap` / `awaitTry`,
and panics are reified as a `Res.panicked` outcome so that unwrap behaviour
is observable in theorems.
-/

set_option linter.unusedSectionVars false

namespace Ferrumc

/-- The unit of persistence (`crate::world::chunkformat::Chunk`, not under
`src/`). Modelled from the spec: `dimension` is a string identifier,
`x_pos`/`z_pos` signed 32-bit coordinates, plus an opaque payload; the code
calls `chunk.dimension.as_ref().unwrap()`, so `dimension` is an `Option`. The
payload is opaque per the spec and is modelled as a single `Nat`. -/
structure Chunk where
  dimension : Option String
  x_pos : Int
  z_pos : Int
  payload : Nat
deriving DecidableEq, Repr

/-- Byte sequences; entries are unconstrained naturals, which is enough for a
codec model (the spec treats the codec as a pure byte transform). -/
abbrev Bytes := List Nat

/-! ## Codec: bincode-style serialization (`encode_to_vec` / `decode_from_slice`)

Modelled from the spec: the bincode crate is not under `src/`; §4.2 describes
`encode` as "serializes the chunk's structured fields into a compact binary
form". We serialize the four fields in declaration order: an option tag plus a
length-prefixed code-point list for `dimension`, a sign byte plus magnitude
for each coordinate, and the payload. -/

/-- Serialize an `Int` as a sign byte followed by the magnitude. -/
def encodeInt (i : Int) : Bytes :=
  if 0 ≤ i then [0, i.toNat] else [1, (-i).toNat]

/-- Parse an `Int` from the front of a byte sequence, returning the rest. -/
def decodeInt : Bytes → Option (Int × Bytes)
  | 0 :: m :: rest => some ((m : Int), rest)
  | 1 :: m :: rest => some (-(m : Int), rest)
  | _ => none

/-- Serialize the optional dimension string: tag byte, then length-prefixed
character code points. -/
def encodeOptDim : Option String → Bytes
  | none => [0]
  | some s => 1 :: s.data.length :: s.data.map Char.toNat

/-- Split the first `n` bytes off a byte sequence; fails when fewer than `n`
bytes remain. -/
def splitN : Nat → Bytes → Option (Bytes × Bytes)
  | 0, bs => some ([], bs)
  | _ + 1, [] => none
  | n + 1, b :: bs =>
    match splitN n bs with
    | some (xs, rest) => some (b :: xs, rest)
    | none => none

/-- Parse the optional dimension string from the front of a byte sequence. -/
def decodeOptDim : Bytes → Option (Option String × Bytes)
  | 0 :: rest => some (none, rest)
  | 1 :: len :: rest =>
    match splitN len rest with
    | some (cs, rest2) => some (some ⟨cs.map Char.ofNat⟩, rest2)
    | none => none
  | _ => none

/-- Serialization of a chunk record, field by field in declaration order
(models `bincode::encode_to_vec(item, standard())`). -/
def encodeChunkRecord (c : Chunk) : Bytes :=
  encodeOptDim c.dimension ++ encodeInt c.x_pos ++ encodeInt c.z_pos ++ [c.payload]

/-- Deserialization of a chunk record (models
`bincode::decode_from_slice(&decompressed, standard())`, which returns the
decoded value and the number of consumed bytes, ignoring any trailing bytes). -/
def decodeChunkRecord (bs : Bytes) : Option Chunk :=
  match decodeOptDim bs with
  | none => none
  | some (dim, r1) =>
    match decodeInt r1 with
    | none => none
    | some (x, r2) =>
      match decodeInt r2 with
      | none => none
      | some (z, r3) =>
        match r3 with
        | p :: _ => some ⟨dim, x, z, p⟩
        | [] => none

/-! ## Compressor (`bzip_compress` / `bzip_decompress`)

Modelled from the spec: `crate::utils::binary_utils` is not under `src/`; §4.2
describes it as "a general-purpose compressor" that decode inverts. We model
it as a run-length coder: runs of equal bytes become (count, byte) pairs,
flattened back into a byte sequence. -/

/-- Group a byte sequence into maximal runs of (count, byte) pairs. -/
def rleCompress : Bytes → List (Nat × Nat)
  | [] => []
  | b :: bs =>
    match rleCompress bs with
    | [] => [(1, b)]
    | (n, c) :: rest => if b = c then (n + 1, c) :: rest else (1, b) :: (n, c) :: rest

/-- Expand (count, byte) pairs back into a byte sequence. -/
def rleDecompress : List (Nat × Nat) → Bytes
  | [] => []
  | (n, b) :: rest => List.replicate n b ++ rleDecompress rest

/-- Flatten (count, byte) pairs into a byte sequence. -/
def flattenPairs : List (Nat × Nat) → Bytes
  | [] => []
  | (n, b) :: rest => n :: b :: flattenPairs rest

/-- Parse a byte sequence of even length into (count, byte) pairs. -/
def pairUp : Bytes → Option (List (Nat × Nat))
  | [] => some []
  | n :: b :: rest => (pairUp rest).map (fun ps => (n, b) :: ps)
  | [_] => none

/-- Compression step applied after serialization (models `bzip_compress`). -/
def bzip_compress (bs : Bytes) : Bytes :=
  flattenPairs (rleCompress bs)

/-- Decompression step applied before deserialization (models
`bzip_decompress`); fails on malformed input. -/
def bzip_decompress (bs : Bytes) : Option Bytes :=
  (pairUp bs).map rleDecompress

/-- Model of `BincodeBzip::bytes_encode` (chunks.rs ln 25-31): bincode-encode the item,
then bzip-compress the result. -/
def bytes_encode (c : Chunk) : Bytes :=
  bzip_compress (encodeChunkRecord c)

/-- Model of `BincodeBzip::bytes_decode` (chunks.rs ln 37-43): bzip-decompress the
bytes, then bincode-decode the result; any failure is a decode error. -/
def bytes_decode (bs : Bytes) : Option Chunk :=
  match bzip_decompress bs with
  | none => none
  | some ds => decodeChunkRecord ds

theorem splitN_append (xs rest : Bytes) :
    splitN xs.length (xs ++ rest) = some (xs, rest) := by
  induction xs with
  | nil => simp [splitN]
  | cons x xs ih => simp [splitN, ih]

theorem decodeInt_encodeInt (i : Int) (rest : Bytes) :
    decodeInt (encodeInt i ++ rest) = some (i, rest) := by
  by_cases h : 0 ≤ i
  · simp [encodeInt, decodeInt, h, Int.toNat_of_nonneg h]
  · have h2 : (0 : Int) ≤ -i := by omega
    simp [encodeInt, decodeInt, h, Int.toNat_of_nonneg h2]

theorem decodeOptDim_encodeOptDim (dim : Option String) (rest : Bytes) :
    decodeOptDim (encodeOptDim dim ++ rest) = some (dim, rest) := by
  cases dim with
  | none => simp [encodeOptDim, decodeOptDim]
  | some s =>
    have hlen : (s.data.map Char.toNat).length = s.data.length := by
      simp
    simp only [encodeOptDim, List.cons_append, decodeOptDim]
    rw [← hlen, splitN_append]
    simp [List.map_map, Function.comp_def]

theorem decodeChunkRecord_encodeChunkRecord (c : Chunk) :
    decodeChunkRecord (encodeChunkRecord c) = some c := by
  cases c with
  | mk dim x z p =>
    simp only [encodeChunkRecord, decodeChunkRecord, List.append_assoc,
      decodeOptDim_encodeOptDim, decodeInt_encodeInt]

theorem rleDecompress_rleCompress (bs : Bytes) :
    rleDecompress (rleCompress bs) = bs := by
  induction bs with
  | nil => simp [rleCompress, rleDecompress]
  | cons b bs ih =>
    simp only [rleCompress]
    cases hr : rleCompress bs with
    | nil =>
      rw [hr] at ih
      simp [rleDecompress] at ih
      simp [rleDecompress, ih]
    | cons p rest =>
      obtain ⟨n, c⟩ := p
      rw [hr] at ih
      show rleDecompress (if b = c then (n + 1, c) :: rest else (1, b) :: (n, c) :: rest) = b :: bs
      by_cases hbc : b = c
      · subst hbc
        rw [if_pos rfl]
        show b :: rleDecompress ((n, b) :: rest) = b :: bs
        rw [ih]
      · rw [if_neg hbc]
        show List.replicate 1 b ++ rleDecompress ((n, c) :: rest) = b :: bs
        rw [ih]
        simp

theorem pairUp_flattenPairs (ps : List (Nat × Nat)) :
    pairUp (flattenPairs ps) = some ps := by
  induction ps with
  | nil => simp [flattenPairs, pairUp]
  | cons p rest ih =>
    obtain ⟨n, b⟩ := p
    simp [flattenPairs, pairUp, ih]

theorem bzip_decompress_bzip_compress (bs : Bytes) :
    bzip_decompress (bzip_compress bs) = some bs := by
  simp [bzip_compress, bzip_decompress, pairUp_flattenPairs, rleDecompress_rleCompress]

/-! ## Key derivation

Modelled from the spec: `crate::utils::hash::hash` is not under `src/`; §4.1
describes it as a pure, deterministic, order-sensitive function from
`(dimension: string, x: i32, z: i32)` to `u64`. We model it as an FNV-1a
style fold over the dimension code points followed by the two encoded
coordinates, reduced modulo 2^64. In the source the write paths hash a
`&String` and the read paths a `String`; in Rust both hash identically, so
the model takes the string by value everywhere. -/

/-- One 64-bit FNV-1a absorption step. -/
def hashStep (h b : Nat) : Nat :=
  ((h ^^^ b) * 1099511628211) % 18446744073709551616

/-- Absorb a byte sequence into the running hash state. -/
def hashBytes (h : Nat) (bs : Bytes) : Nat :=
  bs.foldl hashStep h

/-- The 64-bit key of a `(dimension, x, z)` triple. -/
def hash (d : String) (x z : Int) : Nat :=
  hashBytes (hashBytes (hashBytes 14695981039346656037 (d.data.map Char.toNat)) (encodeInt x)) (encodeInt z)

/-! ## Errors and outcomes -/

/-- Model of `crate::utils::error::Error` (not under `src/`), restricted to the
variants this module produces: `DatabaseError(String)` for store failures and
a join-error variant for `?`-converted `tokio::task::JoinError`s (the source
applies `?` to join results in `chunk_exists`, `update_chunk` and
`load_into_cache`, so such a conversion exists). -/
inductive Error where
  | DatabaseError : String → Error
  | JoinError : Error
deriving DecidableEq, Repr

/-- Outcome of running an operation: normal return, error return, or a panic
(Rust `unwrap`/`expect` on a failing value), reified so that panics are
observable in the model. -/
inductive Res (α : Type) where
  | ok : α → Res α
  | err : Error → Res α
  | panicked : String → Res α
deriving DecidableEq, Repr

/-- Panic message of `Option::unwrap` on `None` (the `dimension.as_ref().unwrap()`
call sites). -/
def unwrapNoneMsg : String := "called Option unwrap on a None value"

/-- Panic message of `read_txn().unwrap()` / `write_txn().unwrap()` failing. -/
def txnOpenMsg : String := "transaction open unwrap failed"

/-- Panic message of the `.expect` on a missing "chunks" table (chunks.rs ln 54). -/
def noTableMsg : String := "No table chunks found. The database should have been initialized"

/-- Panic message of `.unwrap()` applied to a failed `spawn_blocking` join. -/
def joinUnwrapMsg : String := "JoinError unwrap"

/-- Model of `spawn_blocking(f).await.unwrap()`: when the join itself fails the unwrap
panics; when the dispatched closure panicked, that panic is re-raised (the
join result is an `Err(JoinError::Panic)` whose unwrap panics); otherwise the
closure result is passed through. Used by `get_chunk`, `insert_chunk`,
`batch_insert` and inside `load_into_cache`. -/
def awaitUnwrap {α : Type} (joinOk : Bool) (r : Res α) : Res α :=
  if joinOk then r else .panicked joinUnwrapMsg

/-- Model of `spawn_blocking(f).await?`: a join failure — including the closure
panicking — is converted into an `Error` by `?` instead of panicking. Used by
`chunk_exists` and `update_chunk`. -/
def awaitTry {α : Type} (joinOk : Bool) (r : Res α) : Res α :=
  if joinOk then
    match r with
    | .panicked _ => .err .JoinError
    | r => r
  else .err .JoinError

/-! ## Database state

`Database` (declared in `crate::database`, not under `src/`) holds a cloneable
heed `Env` plus a moka cache; the spec describes them as the persistent store
(one named table "chunks" from `u64` keys to encoded chunks) and an in-memory
map from keys to decoded chunks. Both are modelled as association lists where
an insert prepends and a lookup takes the first (most recent) binding, which
realises full-overwrite semantics. -/

/-- First binding of `key` in an association list. -/
def assocGet {α : Type} : List (Nat × α) → Nat → Option α
  | [], _ => none
  | (k, v) :: rest, key => if k = key then some v else assocGet rest key

/-- The table "chunks" of the store: key to encoded bytes. -/
abbrev Store := List (Nat × Bytes)

/-- Combined state of the facade: the persistent store table and the cache. -/
structure Database where
  store : Store
  cache : List (Nat × Chunk)
deriving DecidableEq, Repr

/-- Failure oracle for one facade call: whether the `spawn_blocking` join
succeeds, whether `read_txn`/`write_txn` opens, whether the "chunks" table
exists, and whether `commit` succeeds. -/
structure StoreEnv where
  joinOk : Bool
  txnOk : Bool
  tableExists : Bool
  commitOk : Bool
deriving DecidableEq, Repr

/-- All-good oracle: every store/offload step succeeds. -/
def goodEnv : StoreEnv := ⟨true, true, true, true⟩

/-- The freshly initialized database: empty table, empty cache. -/
def emptyDB : Database := ⟨[], []⟩

/-! ## Store helpers (the blocking closures) -/

/-- Model of `Database::get_chunk_from_database` (chunks.rs ln 48-59): unwrap a read
transaction, expect the "chunks" table, then `get` the key; a decode failure
surfaces as a `DatabaseError`, absence as `Ok(None)`. -/
def get_chunk_from_database (env : StoreEnv) (store : Store) (key : Nat) : Res (Option Chunk) :=
  if env.txnOk then
    if env.tableExists then
      match assocGet store key with
      | none => .ok none
      | some bs =>
        match bytes_decode bs with
        | some c => .ok (some c)
        | none => .err (.DatabaseError "Failed to get chunk")
    else .panicked noTableMsg
  else .panicked txnOpenMsg

/-- Model of `Database::insert_chunk_into_database` (chunks.rs ln 62-86): unwrap a
write transaction, expect the "chunks" table, derive the key with
`hash((chunk.dimension.as_ref().unwrap(), chunk.x_pos, chunk.z_pos))`, `put`
the encoded chunk and commit; a commit failure aborts the transaction and is
returned as a `DatabaseError` with the store unchanged. -/
def insert_chunk_into_database (env : StoreEnv) (store : Store) (chunk : Chunk) : Res Store :=
  if env.txnOk then
    if env.tableExists then
      match chunk.dimension with
      | none => .panicked unwrapNoneMsg
      | some d =>
        if env.commitOk then
          .ok ((hash d chunk.x_pos chunk.z_pos, bytes_encode chunk) :: store)
        else .err (.DatabaseError "Unable to commit changes to database")
    else .panicked noTableMsg
  else .panicked txnOpenMsg

/-- The put loop of `insert_chunks_into_database` (chunks.rs ln 99-106): for
each chunk derive the key with the same tuple and `put` it into the open
transaction. -/
def putAll (store : Store) : List Chunk → Res Store
  | [] => .ok store
  | c :: cs =>
    match c.dimension with
    | none => .panicked unwrapNoneMsg
    | some d => putAll ((hash d c.x_pos c.z_pos, bytes_encode c) :: store) cs

/-- Model of `Database::insert_chunks_into_database` (chunks.rs ln 90-113): one write
transaction, all puts, a single atomic commit; any failure before the commit
leaves the store unchanged. -/
def insert_chunks_into_database (env : StoreEnv) (store : Store) (chunks : List Chunk) : Res Store :=
  if env.txnOk then
    if env.tableExists then
      match putAll store chunks with
      | .ok store2 =>
        if env.commitOk then .ok store2
        else .err (.DatabaseError "Unable to commit changes to database")
      | .err e => .err e
      | .panicked s => .panicked s
    else .panicked noTableMsg
  else .panicked txnOpenMsg

/-! ## Facade operations -/

/-- Model of `Database::load_into_cache` (chunks.rs ln 115-146): inside a spawned task,
do nothing when the key is cached; otherwise fetch from the store (join result
unwrapped inside the task), inserting a found chunk into the cache and merely
logging absence or store errors; a panic of the task surfaces through the
outer `.await?` as an `Err`. -/
def load_into_cache (env : StoreEnv) (db : Database) (key : Nat) : Res Unit × Database :=
  if (assocGet db.cache key).isSome then (.ok (), db)
  else
    match awaitUnwrap env.joinOk (get_chunk_from_database env db.store key) with
    | .ok (some c) => (.ok (), { db with cache := (key, c) :: db.cache })
    | .ok none => (.ok (), db)
    | .err _ => (.ok (), db)
    | .panicked _ => (.err .JoinError, db)

/-- Model of `Database::get_chunk` (chunks.rs ln 203-229): derive the key with
`hash((dimension, x, z))`; on cache hit return the cached value without store
access; otherwise offload the store get (join result unwrapped), cache and
return a found chunk, return `None` on absence, propagate store errors. -/
def get_chunk (env : StoreEnv) (db : Database) (x z : Int) (dimension : String) :
    Res (Option Chunk) × Database :=
  let key := hash dimension x z
  if (assocGet db.cache key).isSome then (.ok (assocGet db.cache key), db)
  else
    match awaitUnwrap env.joinOk (get_chunk_from_database env db.store key) with
    | .ok (some c) => (.ok (some c), { db with cache := (key, c) :: db.cache })
    | .ok none => (.ok none, db)
    | .err e => (.err e, db)
    | .panicked s => (.panicked s, db)

/-- Model of `Database::insert_chunk` (chunks.rs ln 166-181): derive the key with
`hash((value.dimension.as_ref().unwrap(), value.x_pos, value.z_pos))`, offload
the store write (join result unwrapped), then insert into the cache. -/
def insert_chunk (env : StoreEnv) (db : Database) (value : Chunk) : Res Unit × Database :=
  match value.dimension with
  | none => (.panicked unwrapNoneMsg, db)
  | some d =>
    let key := hash d value.x_pos value.z_pos
    match awaitUnwrap env.joinOk (insert_chunk_into_database env db.store value) with
    | .ok store2 => (.ok (), ⟨store2, (key, value) :: db.cache⟩)
    | .err e => (.err e, db)
    | .panicked s => (.panicked s, db)

/-- Model of `Database::update_chunk` (chunks.rs ln 294-307): same mechanics as
`insert_chunk`, except that the join result is converted with `??` instead of
being unwrapped. -/
def update_chunk (env : StoreEnv) (db : Database) (value : Chunk) : Res Unit × Database :=
  match value.dimension with
  | none => (.panicked unwrapNoneMsg, db)
  | some d =>
    let key := hash d value.x_pos value.z_pos
    match awaitTry env.joinOk (insert_chunk_into_database env db.store value) with
    | .ok store2 => (.ok (), ⟨store2, (key, value) :: db.cache⟩)
    | .err e => (.err e, db)
    | .panicked s => (.panicked s, db)

/-- Model of `Database::chunk_exists` (chunks.rs ln 249-274): derive the key with
`hash((dimension, x, z))`; cache hit returns true without store access; on a
miss offload the store get with the join result converted by `?`, cache a
found chunk and return true, return false on absence, propagate store errors. -/
def chunk_exists (env : StoreEnv) (db : Database) (x z : Int) (dimension : String) :
    Res Bool × Database :=
  let key := hash dimension x z
  if (assocGet db.cache key).isSome then (.ok true, db)
  else
    match awaitTry env.joinOk (get_chunk_from_database env db.store key) with
    | .ok (some c) => (.ok true, { db with cache := (key, c) :: db.cache })
    | .ok none => (.ok false, db)
    | .err e => (.err e, db)
    | .panicked s => (.panicked s, db)

/-- The key computations of `batch_insert` (chunks.rs ln 332-335):
`values.iter().map(|v| hash((v.dimension.as_ref().unwrap(), v.x_pos, v.z_pos))).collect()`;
`none` models the unwrap panic on a missing dimension. -/
def chunkKeys : List Chunk → Option (List Nat)
  | [] => some []
  | c :: cs =>
    match c.dimension with
    | none => none
    | some d => (chunkKeys cs).map (fun ks => hash d c.x_pos c.z_pos :: ks)

/-- The cache loop of `batch_insert` (chunks.rs ln 340-343): for each
(key, chunk) pair insert into the cache and then call `load_into_cache`,
propagating its error with `?`. -/
def batchLoop (env : StoreEnv) (db : Database) : List (Nat × Chunk) → Res Unit × Database
  | [] => (.ok (), db)
  | (k, c) :: rest =>
    match load_into_cache env { db with cache := (k, c) :: db.cache } k with
    | (.ok _, db2) => batchLoop env db2 rest
    | (.err e, db2) => (.err e, db2)
    | (.panicked s, db2) => (.panicked s, db2)

/-- Model of `Database::batch_insert` (chunks.rs ln 327-350): derive all keys first,
populate the cache for every chunk, then offload a single multi-put store
transaction (join result unwrapped). -/
def batch_insert (env : StoreEnv) (db : Database) (values : List Chunk) : Res Unit × Database :=
  match chunkKeys values with
  | none => (.panicked unwrapNoneMsg, db)
  | some keys =>
    match batchLoop env db (keys.zip values) with
    | (.ok _, db1) =>
      match awaitUnwrap env.joinOk (insert_chunks_into_database env db1.store values) with
      | .ok store2 => (.ok (), { db1 with store := store2 })
      | .err e => (.err e, db1)
      | .panicked s => (.panicked s, db1)
    | other => other

/-! ## Named key-derivation expressions, one per call site -/

/-- Key expression of `get_chunk` (chunks.rs ln 210): `hash((dimension, x, z))`. -/
def getChunkKey (x z : Int) (dimension : String) : Nat := hash dimension x z

/-- Key expression of `chunk_exists` (chunks.rs ln 251): `hash((dimension, x, z))`. -/
def chunkExistsKey (x z : Int) (dimension : String) : Nat := hash dimension x z

/-- Key expression of `insert_chunk` (chunks.rs ln 169):
`hash((value.dimension.as_ref().unwrap(), value.x_pos, value.z_pos))`;
`none` models the unwrap panic. -/
def insertChunkKey (value : Chunk) : Option Nat :=
  value.dimension.map (fun d => hash d value.x_pos value.z_pos)

/-- Key expression of `update_chunk` (chunks.rs ln 297): same tuple as
`insert_chunk`. -/
def updateChunkKey (value : Chunk) : Option Nat :=
  value.dimension.map (fun d => hash d value.x_pos value.z_pos)

/-- Key expression of the store writers (chunks.rs ln 71 and ln 100):
`hash((chunk.dimension.as_ref().unwrap(), chunk.x_pos, chunk.z_pos))`. -/
def storePutKey (chunk : Chunk) : Option Nat :=
  chunk.dimension.map (fun d => hash d chunk.x_pos chunk.z_pos)

/-! ## Sample inputs used to instantiate theorems with hypotheses -/

/-- A sample chunk with a present dimension. -/
def sampleChunk : Chunk := ⟨some "overworld", 0, 0, 7⟩

/-- A second sample chunk sharing `sampleChunk`s triple with another payload. -/
def sampleChunk2 : Chunk := ⟨some "overworld", 0, 0, 9⟩

/-- A sample chunk whose dimension is absent. -/
def sampleChunkNoDim : Chunk := ⟨none, 3, 4, 5⟩

/-! ## Helper lemmas -/

theorem assocGet_cons_self {α : Type} (k : Nat) (v : α) (l : List (Nat × α)) :
    assocGet ((k, v) :: l) k = some v := by
  simp [assocGet]

/-! ## Claim theorems -/

/-- C1: for every chunk with a present dimension, if `insert_chunk` returns
`Ok`, then a subsequent `get_chunk` on the chunk's triple returns
`Ok(Some(c'))` with `c' == c` (the freshly cached value is returned). -/
theorem insert_chunk_then_get_chunk (env env2 : StoreEnv) (db : Database) (c : Chunk)
    (d : String) (hd : c.dimension = some d)
    (hok : (insert_chunk env db c).1 = Res.ok ()) :
    (get_chunk env2 (insert_chunk env db c).2 c.x_pos c.z_pos d).1 = Res.ok (some c) := by
  simp only [insert_chunk, hd] at hok ⊢
  cases h : awaitUnwrap env.joinOk (insert_chunk_into_database env db.store c) with
  | ok store2 =>
    simp only [h]
    simp [get_chunk, assocGet]
  | err e =>
    rw [h] at hok
    simp at hok
  | panicked s =>
    rw [h] at hok
    simp at hok

/-- C1 witness: inserting `sampleChunk` into the empty database succeeds and
the subsequent read returns it. -/
theorem insert_chunk_then_get_chunk_witness :
    (get_chunk goodEnv (insert_chunk goodEnv emptyDB sampleChunk).2
      sampleChunk.x_pos sampleChunk.z_pos "overworld").1 = Res.ok (some sampleChunk) :=
  insert_chunk_then_get_chunk goodEnv goodEnv emptyDB sampleChunk "overworld" rfl (by decide)

/-- C2: the codec round-trips — bzip-decompressing and bincode-decoding the
bytes produced by bincode-encoding and bzip-compressing a chunk yields the
same chunk. -/
theorem codec_roundtrip (c : Chunk) : bytes_decode (bytes_encode c) = some c := by
  simp [bytes_encode, bytes_decode, bzip_decompress_bzip_compress,
    decodeChunkRecord_encodeChunkRecord]

/-- C3: key derivation is a deterministic pure function of the triple, and
every call path — `get_chunk`, `chunk_exists`, `insert_chunk`, `update_chunk`,
`batch_insert` (`chunkKeys`) and the internal store writers — derives the
identical 64-bit key for the same triple. -/
theorem key_derivation_uniform (d : String) (x z : Int) (c : Chunk)
    (hd : c.dimension = some d) (hx : c.x_pos = x) (hz : c.z_pos = z) :
    hash d x z = hash d x z ∧
    getChunkKey x z d = chunkExistsKey x z d ∧
    insertChunkKey c = some (getChunkKey x z d) ∧
    updateChunkKey c = some (getChunkKey x z d) ∧
    storePutKey c = some (getChunkKey x z d) ∧
    chunkKeys [c] = some [getChunkKey x z d] := by
  subst hx
  subst hz
  simp [getChunkKey, chunkExistsKey, insertChunkKey, updateChunkKey, storePutKey, chunkKeys, hd]

/-- C4: `insert_chunk` and `update_chunk` are behaviorally identical
full-overwrite operations: identical resulting state for every input, the
same success outcomes, `insert_chunk` succeeds regardless of whether the key
is already present, and an insert followed by an update of the same triple
reads back as the second chunk, never a merge. -/
theorem insert_update_equivalent :
    (∀ env db c, (insert_chunk env db c).2 = (update_chunk env db c).2 ∧
      ((insert_chunk env db c).1 = Res.ok () ↔ (update_chunk env db c).1 = Res.ok ())) ∧
    (∀ env db c d, c.dimension = some d → env.joinOk = true → env.txnOk = true →
      env.tableExists = true → env.commitOk = true →
      (insert_chunk env db c).1 = Res.ok ()) ∧
    (∀ env1 env2 env3 db c c2 d, c.dimension = some d → c2.dimension = some d →
      c2.x_pos = c.x_pos → c2.z_pos = c.z_pos →
      (update_chunk env2 (insert_chunk env1 db c).2 c2).1 = Res.ok () →
      (get_chunk env3 (update_chunk env2 (insert_chunk env1 db c).2 c2).2
        c2.x_pos c2.z_pos d).1 = Res.ok (some c2)) := by
  refine ⟨?_, ?_, ?_⟩
  · intro env db c
    cases hd : c.dimension with
    | none => simp [insert_chunk, update_chunk, hd]
    | some d =>
      cases hj : env.joinOk with
      | false => simp [insert_chunk, update_chunk, hd, awaitUnwrap, awaitTry, hj]
      | true =>
        cases hr : insert_chunk_into_database env db.store c with
        | ok s2 => simp [insert_chunk, update_chunk, hd, awaitUnwrap, awaitTry, hj, hr]
        | err e => simp [insert_chunk, update_chunk, hd, awaitUnwrap, awaitTry, hj, hr]
        | panicked s => simp [insert_chunk, update_chunk, hd, awaitUnwrap, awaitTry, hj, hr]
  · intro env db c d hd hj htx hte hc
    simp [insert_chunk, hd, awaitUnwrap, hj, insert_chunk_into_database, htx, hte, hc]
  · intro env1 env2 env3 db c c2 d hd hd2 hx hz hupd
    simp only [update_chunk, hd2] at hupd ⊢
    cases h : awaitTry env2.joinOk
        (insert_chunk_into_database env2 (insert_chunk env1 db c).2.store c2) with
    | ok s2 =>
      simp only [h]
      simp [get_chunk, assocGet]
    | err e =>
      rw [h] at hupd
      simp at hupd
    | panicked s =>
      rw [h] at hupd
      simp at hupd

/-- C4 witness: a concrete insert into the empty database succeeds (the
no-error-on-existing-key conjunct instantiated). -/
theorem insert_update_equivalent_witness :
    (insert_chunk goodEnv emptyDB sampleChunk).1 = Res.ok () :=
  insert_update_equivalent.2.1 goodEnv emptyDB sampleChunk "overworld" rfl rfl rfl rfl rfl

/-- C5: `chunk_exists` returns `Ok(true)` with no store access on a cache hit
(for every oracle, including failing stores); on a cache miss it performs the
store get — caching the decoded chunk and returning `Ok(true)` if found,
returning `Ok(false)` with the cache unchanged if absent, propagating a store
failure as `Err`; and on the fresh (empty) database it returns `Ok(false)`. -/
theorem chunk_exists_spec :
    (∀ env db x z d, (assocGet db.cache (hash d x z)).isSome →
      chunk_exists env db x z d = (Res.ok true, db)) ∧
    (∀ env db x z d c, assocGet db.cache (hash d x z) = none → env.joinOk = true →
      get_chunk_from_database env db.store (hash d x z) = Res.ok (some c) →
      chunk_exists env db x z d
        = (Res.ok true, { db with cache := (hash d x z, c) :: db.cache })) ∧
    (∀ env db x z d, assocGet db.cache (hash d x z) = none → env.joinOk = true →
      get_chunk_from_database env db.store (hash d x z) = Res.ok none →
      chunk_exists env db x z d = (Res.ok false, db)) ∧
    (∀ env db x z d e, assocGet db.cache (hash d x z) = none → env.joinOk = true →
      get_chunk_from_database env db.store (hash d x z) = Res.err e →
      chunk_exists env db x z d = (Res.err e, db)) ∧
    (∀ env x z d, env.joinOk = true → env.txnOk = true → env.tableExists = true →
      chunk_exists env emptyDB x z d = (Res.ok false, emptyDB)) := by
  refine ⟨?_, ?_, ?_, ?_, ?_⟩
  · intro env db x z d h
    simp [chunk_exists, h]
  · intro env db x z d c hm hj hg
    simp [chunk_exists, hm, awaitTry, hj, hg]
  · intro env db x z d hm hj hg
    simp [chunk_exists, hm, awaitTry, hj, hg]
  · intro env db x z d e hm hj hg
    simp [chunk_exists, hm, awaitTry, hj, hg]
  · intro env x z d hj htx hte
    simp [chunk_exists, emptyDB, assocGet, awaitTry, hj, get_chunk_from_database, htx, hte]

/-- C5 witness: a triple never inserted — on the empty database — reports
`Ok(false)`. -/
theorem chunk_exists_spec_witness :
    chunk_exists goodEnv emptyDB 5 5 "nether" = (Res.ok false, emptyDB) :=
  chunk_exists_spec.2.2.2.2 goodEnv 5 5 "nether" rfl rfl rfl

/-- C7: single-chunk writes run the store transaction first — a commit
failure returns `Err` with the whole state (cache included) unchanged, for
`insert_chunk` and `update_chunk` alike; any `Err` outcome leaves the state
unchanged; and on success the store and then the cache both hold the chunk. -/
theorem single_write_store_first :
    (∀ env db c d, c.dimension = some d → env.joinOk = true → env.txnOk = true →
      env.tableExists = true → env.commitOk = false →
      insert_chunk env db c
        = (Res.err (.DatabaseError "Unable to commit changes to database"), db)) ∧
    (∀ env db c d, c.dimension = some d → env.joinOk = true → env.txnOk = true →
      env.tableExists = true → env.commitOk = false →
      update_chunk env db c
        = (Res.err (.DatabaseError "Unable to commit changes to database"), db)) ∧
    (∀ env db c e, (insert_chunk env db c).1 = Res.err e → (insert_chunk env db c).2 = db) ∧
    (∀ env db c e, (update_chunk env db c).1 = Res.err e → (update_chunk env db c).2 = db) ∧
    (∀ env db c d, c.dimension = some d → env.joinOk = true → env.txnOk = true →
      env.tableExists = true → env.commitOk = true →
      insert_chunk env db c
        = (Res.ok (), ⟨(hash d c.x_pos c.z_pos, bytes_encode c) :: db.store,
            (hash d c.x_pos c.z_pos, c) :: db.cache⟩)) := by
  refine ⟨?_, ?_, ?_, ?_, ?_⟩
  · intro env db c d hd hj htx hte hc
    simp [insert_chunk, hd, awaitUnwrap, hj, insert_chunk_into_database, htx, hte, hc]
  · intro env db c d hd hj htx hte hc
    simp [update_chunk, hd, awaitTry, hj, insert_chunk_into_database, htx, hte, hc]
  · intro env db c e h
    cases hd : c.dimension with
    | none =>
      simp [insert_chunk, hd]
    | some d =>
      simp only [insert_chunk, hd] at h ⊢
      cases hr : awaitUnwrap env.joinOk (insert_chunk_into_database env db.store c) with
      | ok s2 =>
        rw [hr] at h
        simp at h
      | err e2 => simp [hr]
      | panicked s => rw [hr] at h
  · intro env db c e h
    cases hd : c.dimension with
    | none =>
      simp [update_chunk, hd]
    | some d =>
      simp only [update_chunk, hd] at h ⊢
      cases hr : awaitTry env.joinOk (insert_chunk_into_database env db.store c) with
      | ok s2 =>
        rw [hr] at h
        simp at h
      | err e2 => simp [hr]
      | panicked s => rw [hr] at h
  · intro env db c d hd hj htx hte hc
    simp [insert_chunk, hd, awaitUnwrap, hj, insert_chunk_into_database, htx, hte, hc]

/-- C7 witness: a failing commit on a concrete insert returns the commit
error and leaves the empty database untouched. -/
theorem single_write_store_first_witness :
    insert_chunk ⟨true, true, true, false⟩ emptyDB sampleChunk
      = (Res.err (.DatabaseError "Unable to commit changes to database"), emptyDB) :=
  single_write_store_first.1 ⟨true, true, true, false⟩ emptyDB sampleChunk "overworld"
    rfl rfl rfl rfl rfl

/-! ## Batch-insert machinery -/

/-- The cache loop of `batch_insert` always succeeds: each `load_into_cache`
call follows the cache insert of the same key, so it is a no-op, and the
store is untouched. -/
theorem batchLoop_eq (env : StoreEnv) (db : Database) (pairs : List (Nat × Chunk)) :
    batchLoop env db pairs
      = (Res.ok (), ⟨db.store, pairs.foldl (fun acc p => p :: acc) db.cache⟩) := by
  induction pairs generalizing db with
  | nil => simp [batchLoop]
  | cons p rest ih =>
    obtain ⟨k, c⟩ := p
    simp only [batchLoop, load_into_cache, assocGet_cons_self, Option.isSome_some, if_true]
    rw [List.foldl_cons]
    exact ih ⟨db.store, (k, c) :: db.cache⟩

theorem foldl_flip_cons_eq (pairs cache : List (Nat × Chunk)) :
    pairs.foldl (fun acc p => p :: acc) cache = pairs.reverse ++ cache := by
  induction pairs generalizing cache with
  | nil => simp
  | cons p rest ih => simp [List.foldl_cons, ih]

theorem assocGet_append_of_mem (l rest : List (Nat × Chunk)) (k : Nat) (c : Chunk)
    (hnd : (l.map Prod.fst).Nodup) (hmem : (k, c) ∈ l) :
    assocGet (l ++ rest) k = some c := by
  induction l with
  | nil => simp at hmem
  | cons p l ih =>
    obtain ⟨k1, c1⟩ := p
    rcases List.mem_cons.mp hmem with h | h
    · injection h with hk hc
      subst hk
      subst hc
      exact assocGet_cons_self k c (l ++ rest)
    · have hk1 : k1 ≠ k := by
        intro he
        subst he
        have hin : k1 ∈ l.map Prod.fst := List.mem_map.mpr ⟨(k1, c), h, rfl⟩
        exact (List.nodup_cons.mp hnd).1 hin
      simp only [List.cons_append, assocGet, if_neg hk1]
      exact ih (List.nodup_cons.mp hnd).2 h

theorem chunkKeys_length (values : List Chunk) (keys : List Nat)
    (hk : chunkKeys values = some keys) : keys.length = values.length := by
  induction values generalizing keys with
  | nil =>
    simp [chunkKeys] at hk
    simp [← hk]
  | cons v vs ih =>
    cases hvd : v.dimension with
    | none => simp [chunkKeys, hvd] at hk
    | some dv =>
      simp only [chunkKeys, hvd] at hk
      obtain ⟨ks, hks, hkeys⟩ := Option.map_eq_some'.mp hk
      subst hkeys
      simp [ih ks hks]

theorem chunkKeys_dimension_ne_none (values : List Chunk) (keys : List Nat)
    (hk : chunkKeys values = some keys) : ∀ c ∈ values, c.dimension ≠ none := by
  induction values generalizing keys with
  | nil => simp
  | cons v vs ih =>
    intro c hc
    cases hvd : v.dimension with
    | none => simp [chunkKeys, hvd] at hk
    | some dv =>
      simp only [chunkKeys, hvd] at hk
      obtain ⟨ks, hks, -⟩ := Option.map_eq_some'.mp hk
      rcases List.mem_cons.mp hc with h | h
      · subst h
        simp [hvd]
      · exact ih ks hks c h

theorem chunkKeys_zip_mem (values : List Chunk) (keys : List Nat) (c : Chunk) (d : String)
    (hk : chunkKeys values = some keys) (hmem : c ∈ values) (hd : c.dimension = some d) :
    (hash d c.x_pos c.z_pos, c) ∈ keys.zip values := by
  induction values generalizing keys with
  | nil => simp at hmem
  | cons v vs ih =>
    cases hvd : v.dimension with
    | none => simp [chunkKeys, hvd] at hk
    | some dv =>
      simp only [chunkKeys, hvd] at hk
      obtain ⟨ks, hks, hkeys⟩ := Option.map_eq_some'.mp hk
      subst hkeys
      rcases List.mem_cons.mp hmem with h | h
      · subst h
        have hdd : dv = d := Option.some.inj (hvd.symm.trans hd)
        subst hdd
        simp [List.zip_cons_cons]
      · simp only [List.zip_cons_cons]
        exact List.mem_cons_of_mem _ (ih ks hks h)

theorem putAll_ok (store : Store) (values : List Chunk)
    (hdim : ∀ c ∈ values, c.dimension ≠ none) :
    ∃ s2, putAll store values = Res.ok s2 := by
  induction values generalizing store with
  | nil => exact ⟨store, rfl⟩
  | cons v vs ih =>
    cases hvd : v.dimension with
    | none => exact absurd hvd (hdim v (by simp))
    | some dv =>
      simp only [putAll, hvd]
      exact ih _ (fun c hc => hdim c (by simp [hc]))

theorem chunkKeys_none_of_mem (values : List Chunk) (c : Chunk) (hd : c.dimension = none) :
    c ∈ values → chunkKeys values = none := by
  induction values with
  | nil =>
    intro hmem
    simp at hmem
  | cons v vs ih =>
    intro hmem
    rcases List.mem_cons.mp hmem with h | h
    · subst h
      simp [chunkKeys, hd]
    · cases hvd : v.dimension with
      | none => simp [chunkKeys, hvd]
      | some dv => simp [chunkKeys, hvd, ih h]

theorem awaitTry_ne_panicked {α : Type} (jo : Bool) (r : Res α) (s : String) :
    awaitTry jo r ≠ Res.panicked s := by
  cases jo with
  | false => simp [awaitTry]
  | true => cases r <;> simp [awaitTry]

theorem insert_chunk_into_database_panic_msg (env : StoreEnv) (store : Store) (c : Chunk)
    (d s : String) (hd : c.dimension = some d)
    (h : insert_chunk_into_database env store c = Res.panicked s) :
    s = txnOpenMsg ∨ s = noTableMsg := by
  cases htx : env.txnOk with
  | false =>
    simp [insert_chunk_into_database, htx] at h
    exact Or.inl h.symm
  | true =>
    cases hte : env.tableExists with
    | false =>
      simp [insert_chunk_into_database, htx, hte] at h
      exact Or.inr h.symm
    | true =>
      cases hc : env.commitOk with
      | false => simp [insert_chunk_into_database, htx, hte, hc, hd] at h
      | true => simp [insert_chunk_into_database, htx, hte, hc, hd] at h

theorem insert_chunks_into_database_panic_msg (env : StoreEnv) (store : Store)
    (values : List Chunk) (keys : List Nat) (s : String)
    (hk : chunkKeys values = some keys)
    (h : insert_chunks_into_database env store values = Res.panicked s) :
    s = txnOpenMsg ∨ s = noTableMsg := by
  obtain ⟨s2, hput⟩ := putAll_ok store values (chunkKeys_dimension_ne_none values keys hk)
  cases htx : env.txnOk with
  | false =>
    simp [insert_chunks_into_database, htx] at h
    exact Or.inl h.symm
  | true =>
    cases hte : env.tableExists with
    | false =>
      simp [insert_chunks_into_database, htx, hte] at h
      exact Or.inr h.symm
    | true =>
      cases hc : env.commitOk with
      | false => simp [insert_chunks_into_database, htx, hte, hput, hc] at h
      | true => simp [insert_chunks_into_database, htx, hte, hput, hc] at h

theorem insert_chunk_panic_msg (env : StoreEnv) (db : Database) (c : Chunk) (d s : String)
    (hd : c.dimension = some d)
    (h : (insert_chunk env db c).1 = Res.panicked s) :
    s = joinUnwrapMsg ∨ s = txnOpenMsg ∨ s = noTableMsg := by
  simp only [insert_chunk, hd] at h
  cases hr : awaitUnwrap env.joinOk (insert_chunk_into_database env db.store c) with
  | ok s2 =>
    rw [hr] at h
    simp at h
  | err e =>
    rw [hr] at h
    simp at h
  | panicked s0 =>
    rw [hr] at h
    simp at h
    subst h
    cases hj : env.joinOk with
    | false =>
      simp [awaitUnwrap, hj] at hr
      exact Or.inl hr.symm
    | true =>
      simp only [awaitUnwrap, hj, if_true] at hr
      rcases insert_chunk_into_database_panic_msg env db.store c d s0 hd hr with h2 | h2
      · exact Or.inr (Or.inl h2)
      · exact Or.inr (Or.inr h2)

theorem batch_insert_panic_msg (env : StoreEnv) (db : Database) (values : List Chunk)
    (keys : List Nat) (s : String) (hk : chunkKeys values = some keys)
    (h : (batch_insert env db values).1 = Res.panicked s) :
    s = joinUnwrapMsg ∨ s = txnOpenMsg ∨ s = noTableMsg := by
  simp only [batch_insert, hk, batchLoop_eq] at h
  cases hr : awaitUnwrap env.joinOk
      (insert_chunks_into_database env db.store values) with
  | ok s2 =>
    rw [hr] at h
    simp at h
  | err e =>
    rw [hr] at h
    simp at h
  | panicked s0 =>
    rw [hr] at h
    simp at h
    subst h
    cases hj : env.joinOk with
    | false =>
      simp [awaitUnwrap, hj] at hr
      exact Or.inl hr.symm
    | true =>
      simp only [awaitUnwrap, hj, if_true] at hr
      rcases insert_chunks_into_database_panic_msg env db.store values keys s0 hk hr with h2 | h2
      · exact Or.inr (Or.inl h2)
      · exact Or.inr (Or.inr h2)

/-- C6 counterexample: a batch holding two chunks with the same triple
succeeds, but `get_chunk` for that triple returns the second chunk — the
first chunk of the batch is not retrievable, refuting the claim as stated. -/
theorem batch_insert_duplicate_triple_counterexample :
    sampleChunk ∈ [sampleChunk, sampleChunk2] ∧
    (batch_insert goodEnv emptyDB [sampleChunk, sampleChunk2]).1 = Res.ok () ∧
    (get_chunk goodEnv (batch_insert goodEnv emptyDB [sampleChunk, sampleChunk2]).2
      sampleChunk.x_pos sampleChunk.z_pos "overworld").1 = Res.ok (some sampleChunk2) ∧
    (get_chunk goodEnv (batch_insert goodEnv emptyDB [sampleChunk, sampleChunk2]).2
      sampleChunk.x_pos sampleChunk.z_pos "overworld").1 ≠ Res.ok (some sampleChunk) := by
  decide

/-- C6 (amended): `batch_insert` derives all keys and populates the cache for
every chunk before the single store transaction — on a commit failure the
result is `Err` while the store is unchanged and the cache already holds
every chunk — and when the derived keys are pairwise distinct, after success
every chunk of the batch is retrievable via `get_chunk` on its triple. -/
theorem batch_insert_amended (env : StoreEnv) (db : Database) (values : List Chunk)
    (keys : List Nat) (hk : chunkKeys values = some keys) (hnd : keys.Nodup)
    (hj : env.joinOk = true) (htx : env.txnOk = true) (hte : env.tableExists = true) :
    (env.commitOk = true →
      (batch_insert env db values).1 = Res.ok () ∧
      ∀ env2 c d, c ∈ values → c.dimension = some d →
        (get_chunk env2 (batch_insert env db values).2 c.x_pos c.z_pos d).1
          = Res.ok (some c)) ∧
    (env.commitOk = false →
      (batch_insert env db values).1
        = Res.err (.DatabaseError "Unable to commit changes to database") ∧
      (batch_insert env db values).2.store = db.store ∧
      ∀ c d, c ∈ values → c.dimension = some d →
        assocGet (batch_insert env db values).2.cache (hash d c.x_pos c.z_pos)
          = some c) := by
  obtain ⟨s2, hput⟩ := putAll_ok db.store values (chunkKeys_dimension_ne_none values keys hk)
  have hcache : ∀ c d, c ∈ values → c.dimension = some d →
      assocGet ((keys.zip values).foldl (fun acc p => p :: acc) db.cache)
        (hash d c.x_pos c.z_pos) = some c := by
    intro c d hc hd
    rw [foldl_flip_cons_eq]
    apply assocGet_append_of_mem
    · rw [List.map_reverse]
      rw [List.map_fst_zip keys values (le_of_eq (chunkKeys_length values keys hk))]
      exact List.nodup_reverse.mpr hnd
    · exact List.mem_reverse.mpr (chunkKeys_zip_mem values keys c d hk hc hd)
  cases hcommit : env.commitOk with
  | true =>
    have hb : batch_insert env db values
        = (Res.ok (), ⟨s2, (keys.zip values).foldl (fun acc p => p :: acc) db.cache⟩) := by
      simp [batch_insert, hk, batchLoop_eq, awaitUnwrap, hj,
        insert_chunks_into_database, htx, hte, hput, hcommit]
    constructor
    · intro _
      refine ⟨by rw [hb], ?_⟩
      intro env2 c d hc hd
      rw [hb]
      have h2 := hcache c d hc hd
      rw [foldl_flip_cons_eq] at h2
      simp [get_chunk, h2]
    · intro hfalse
      simp at hfalse
  | false =>
    have hb : batch_insert env db values
        = (Res.err (.DatabaseError "Unable to commit changes to database"),
            ⟨db.store, (keys.zip values).foldl (fun acc p => p :: acc) db.cache⟩) := by
      simp [batch_insert, hk, batchLoop_eq, awaitUnwrap, hj,
        insert_chunks_into_database, htx, hte, hput, hcommit]
    constructor
    · intro htrue
      simp at htrue
    · intro _
      refine ⟨by rw [hb], by rw [hb], ?_⟩
      intro c d hc hd
      rw [hb]
      exact hcache c d hc hd

/-- C6 witness: the amended batch property at two concrete chunks with
distinct triples. -/
theorem batch_insert_amended_witness :
    (batch_insert goodEnv emptyDB [sampleChunk, ⟨some "nether", 1, 2, 3⟩]).1
      = Res.ok () :=
  ((batch_insert_amended goodEnv emptyDB [sampleChunk, ⟨some "nether", 1, 2, 3⟩]
    [hash "overworld" 0 0, hash "nether" 1 2] rfl (by decide) rfl rfl rfl).1 rfl).1

/-- C8 counterexample: with the blocking-offload join failing, `insert_chunk`,
`get_chunk` and `batch_insert` panic (they unwrap the join result) instead of
returning an `Err`, refuting the claim for those operations. -/
theorem join_failure_counterexample :
    (insert_chunk ⟨false, true, true, true⟩ emptyDB sampleChunk).1
      = Res.panicked joinUnwrapMsg ∧
    (get_chunk ⟨false, true, true, true⟩ emptyDB 0 0 "overworld").1
      = Res.panicked joinUnwrapMsg ∧
    (batch_insert ⟨false, true, true, true⟩ emptyDB [sampleChunk]).1
      = Res.panicked joinUnwrapMsg := by
  decide

/-- C8 (amended): a failure of the blocking-offload join is converted into an
`Err` by `chunk_exists` and `update_chunk` (which apply `?` to the join
result), while `get_chunk`, `insert_chunk` and `batch_insert` unwrap the join
result and panic. -/
theorem join_failure_amended (env : StoreEnv) (db : Database) (x z : Int) (d : String)
    (c : Chunk) (values : List Chunk) (keys : List Nat)
    (hj : env.joinOk = false)
    (hmiss : assocGet db.cache (hash d x z) = none)
    (hd : c.dimension = some d)
    (hks : chunkKeys values = some keys) :
    (get_chunk env db x z d).1 = Res.panicked joinUnwrapMsg ∧
    (insert_chunk env db c).1 = Res.panicked joinUnwrapMsg ∧
    (batch_insert env db values).1 = Res.panicked joinUnwrapMsg ∧
    (chunk_exists env db x z d).1 = Res.err .JoinError ∧
    (update_chunk env db c).1 = Res.err .JoinError := by
  refine ⟨?_, ?_, ?_, ?_, ?_⟩
  · simp [get_chunk, hmiss, awaitUnwrap, hj]
  · simp [insert_chunk, hd, awaitUnwrap, hj]
  · simp [batch_insert, hks, batchLoop_eq, awaitUnwrap, hj]
  · simp [chunk_exists, hmiss, awaitTry, hj]
  · simp [update_chunk, hd, awaitTry, hj]

/-- C8 witness: the amended join-failure behaviour at concrete inputs. -/
theorem join_failure_amended_witness :
    (get_chunk ⟨false, true, true, true⟩ emptyDB 3 4 "overworld").1
      = Res.panicked joinUnwrapMsg ∧
    (insert_chunk ⟨false, true, true, true⟩ emptyDB sampleChunk).1
      = Res.panicked joinUnwrapMsg ∧
    (batch_insert ⟨false, true, true, true⟩ emptyDB [sampleChunk]).1
      = Res.panicked joinUnwrapMsg ∧
    (chunk_exists ⟨false, true, true, true⟩ emptyDB 3 4 "overworld").1
      = Res.err .JoinError ∧
    (update_chunk ⟨false, true, true, true⟩ emptyDB sampleChunk).1
      = Res.err .JoinError :=
  join_failure_amended ⟨false, true, true, true⟩ emptyDB 3 4 "overworld" sampleChunk
    [sampleChunk] [hash "overworld" 0 0] rfl rfl rfl rfl

/-- C9 counterexample: with the "chunks" table missing, `get_chunk` and
`insert_chunk` panic (the expect inside the blocking closure, re-raised by
unwrapping the join result) instead of returning an error value, refuting
the claim that no facade operation panics on this condition. -/
theorem missing_table_counterexample :
    (get_chunk ⟨true, true, false, true⟩ emptyDB 0 0 "overworld").1
      = Res.panicked noTableMsg ∧
    (insert_chunk ⟨true, true, false, true⟩ emptyDB sampleChunk).1
      = Res.panicked noTableMsg := by
  decide

/-- C9 (amended): a transaction-open failure or a missing "chunks" table is an
unwrap/expect panic inside the store helpers; `get_chunk`, `insert_chunk` and
`batch_insert` propagate it as a panic, while `chunk_exists` and
`update_chunk` convert the panicked task into a plain `Err` join error
carrying no non-retriable classification. -/
theorem init_failure_amended (env envT : StoreEnv) (db : Database) (x z : Int)
    (d : String) (c : Chunk) (values : List Chunk) (keys : List Nat)
    (hj : env.joinOk = true) (htx : env.txnOk = true) (hte : env.tableExists = false)
    (hjT : envT.joinOk = true) (htxT : envT.txnOk = false)
    (hmiss : assocGet db.cache (hash d x z) = none)
    (hd : c.dimension = some d) (hks : chunkKeys values = some keys) :
    (get_chunk env db x z d).1 = Res.panicked noTableMsg ∧
    (insert_chunk env db c).1 = Res.panicked noTableMsg ∧
    (batch_insert env db values).1 = Res.panicked noTableMsg ∧
    (chunk_exists env db x z d).1 = Res.err .JoinError ∧
    (update_chunk env db c).1 = Res.err .JoinError ∧
    (get_chunk envT db x z d).1 = Res.panicked txnOpenMsg ∧
    (insert_chunk envT db c).1 = Res.panicked txnOpenMsg ∧
    (chunk_exists envT db x z d).1 = Res.err .JoinError ∧
    (update_chunk envT db c).1 = Res.err .JoinError := by
  refine ⟨?_, ?_, ?_, ?_, ?_, ?_, ?_, ?_, ?_⟩
  · simp [get_chunk, hmiss, awaitUnwrap, hj, get_chunk_from_database, htx, hte]
  · simp [insert_chunk, hd, awaitUnwrap, hj, insert_chunk_into_database, htx, hte]
  · simp [batch_insert, hks, batchLoop_eq, awaitUnwrap, hj,
      insert_chunks_into_database, htx, hte]
  · simp [chunk_exists, hmiss, awaitTry, hj, get_chunk_from_database, htx, hte]
  · simp [update_chunk, hd, awaitTry, hj, insert_chunk_into_database, htx, hte]
  · simp [get_chunk, hmiss, awaitUnwrap, hjT, get_chunk_from_database, htxT]
  · simp [insert_chunk, hd, awaitUnwrap, hjT, insert_chunk_into_database, htxT]
  · simp [chunk_exists, hmiss, awaitTry, hjT, get_chunk_from_database, htxT]
  · simp [update_chunk, hd, awaitTry, hjT, insert_chunk_into_database, htxT]

/-- C9 witness: the amended initialization-failure behaviour at concrete
inputs. -/
theorem init_failure_amended_witness :
    (get_chunk ⟨true, true, false, true⟩ emptyDB 3 4 "overworld").1
      = Res.panicked noTableMsg ∧
    (insert_chunk ⟨true, true, false, true⟩ emptyDB sampleChunk).1
      = Res.panicked noTableMsg ∧
    (batch_insert ⟨true, true, false, true⟩ emptyDB [sampleChunk]).1
      = Res.panicked noTableMsg ∧
    (chunk_exists ⟨true, true, false, true⟩ emptyDB 3 4 "overworld").1
      = Res.err .JoinError ∧
    (update_chunk ⟨true, true, false, true⟩ emptyDB sampleChunk).1
      = Res.err .JoinError ∧
    (get_chunk ⟨true, false, true, true⟩ emptyDB 3 4 "overworld").1
      = Res.panicked txnOpenMsg ∧
    (insert_chunk ⟨true, false, true, true⟩ emptyDB sampleChunk).1
      = Res.panicked txnOpenMsg ∧
    (chunk_exists ⟨true, false, true, true⟩ emptyDB 3 4 "overworld").1
      = Res.err .JoinError ∧
    (update_chunk ⟨true, false, true, true⟩ emptyDB sampleChunk).1
      = Res.err .JoinError :=
  init_failure_amended ⟨true, true, false, true⟩ ⟨true, false, true, true⟩ emptyDB
    3 4 "overworld" sampleChunk [sampleChunk] [hash "overworld" 0 0]
    rfl rfl rfl rfl rfl rfl rfl rfl

/-- C10: every write operation panics at key derivation when the chunk's
dimension is `None` (the `unwrap` on the dimension), leaving the state
untouched, and under the precondition that the dimension is present that
panic is unreachable in `insert_chunk`, `update_chunk` and `batch_insert`. -/
theorem dimension_none_write_panics :
    (∀ env db c, c.dimension = none →
      insert_chunk env db c = (Res.panicked unwrapNoneMsg, db) ∧
      update_chunk env db c = (Res.panicked unwrapNoneMsg, db)) ∧
    (∀ env db c values, c ∈ values → c.dimension = none →
      batch_insert env db values = (Res.panicked unwrapNoneMsg, db)) ∧
    (∀ env db c d, c.dimension = some d →
      (insert_chunk env db c).1 ≠ Res.panicked unwrapNoneMsg ∧
      (update_chunk env db c).1 ≠ Res.panicked unwrapNoneMsg) ∧
    (∀ env db values keys, chunkKeys values = some keys →
      (batch_insert env db values).1 ≠ Res.panicked unwrapNoneMsg) := by
  refine ⟨?_, ?_, ?_, ?_⟩
  · intro env db c hd
    exact ⟨by simp [insert_chunk, hd], by simp [update_chunk, hd]⟩
  · intro env db c values hmem hd
    simp [batch_insert, chunkKeys_none_of_mem values c hd hmem]
  · intro env db c d hd
    constructor
    · intro h
      rcases insert_chunk_panic_msg env db c d unwrapNoneMsg hd h with h1 | h1 | h1
      · exact absurd h1 (by decide)
      · exact absurd h1 (by decide)
      · exact absurd h1 (by decide)
    · intro h
      simp only [update_chunk, hd] at h
      cases hr : awaitTry env.joinOk (insert_chunk_into_database env db.store c) with
      | ok s2 =>
        rw [hr] at h
        simp at h
      | err e =>
        rw [hr] at h
        simp at h
      | panicked s => exact awaitTry_ne_panicked env.joinOk _ s hr
  · intro env db values keys hk h
    rcases batch_insert_panic_msg env db values keys unwrapNoneMsg hk h with h1 | h1 | h1
    · exact absurd h1 (by decide)
    · exact absurd h1 (by decide)
    · exact absurd h1 (by decide)

/-- C10 witness: a concrete write with an absent dimension panics with the
unwrap message, leaving the database untouched. -/
theorem dimension_none_write_panics_witness :
    insert_chunk goodEnv emptyDB sampleChunkNoDim = (Res.panicked unwrapNoneMsg, emptyDB) :=
  (dimension_none_write_panics.1 goodEnv emptyDB sampleChunkNoDim rfl).1

/-- C3 witness: the uniform key derivation instantiated at `sampleChunk`s
triple. -/
theorem key_derivation_uniform_witness :
    hash "overworld" 0 0 = hash "overworld" 0 0 ∧
    getChunkKey 0 0 "overworld" = chunkExistsKey 0 0 "overworld" ∧
    insertChunkKey sampleChunk = some (getChunkKey 0 0 "overworld") ∧
    updateChunkKey sampleChunk = some (getChunkKey 0 0 "overworld") ∧
    storePutKey sampleChunk = some (getChunkKey 0 0 "overworld") ∧
    chunkKeys [sampleChunk] = some [getChunkKey 0 0 "overworld"] :=
  key_derivation_uniform "overworld" 0 0 sampleChunk rfl rfl rfl

end Ferrumc
